import Mathlib

/-!
Verification of the rustydht-lib DHT core (src/dht/dht.rs and src/dht/operations.rs)
against its natural-language specification.

The Rust source is shallowly embedded below:
* byte strings are `List Nat` with each element taken mod 256 where it matters,
* 160-bit `Id` values are `Nat` (the big-endian numeric value of the 20 bytes;
  the derived lexicographic order on `[u8; 20]` coincides with `<` on that value),
* `std::time::Instant` is a `Nat` (seconds of monotonic time); `checked_sub`
  returns `none` exactly when the subtraction would underflow,
* randomness (`thread_rng`) is an explicit stream parameter `rng : Nat → Nat`,
* fallible code returns `Option`/`Except`.

Components of the repository that the two source files call but that are not part
of the source under inspection (PeerStorage, NodeStorage, the error enum, the
socket / transaction table, subscriber channels, the `crc` crate) are modelled
from the specification; each such definition carries a doc comment saying so.
-/

/-! ## Basic data model -/

/-- Byte strings (`Vec<u8>` / `&[u8]`). -/
abbrev Bytes := List Nat

/-- 160-bit node identifier (`Id`), as the big-endian numeric value of its 20
bytes.  XOR and the comparison order transport along this encoding. -/
abbrev NodeId := Nat

/-- `std::net::SocketAddr`: IP octets (4 for IPv4, 16 for IPv6) plus a port. -/
structure SockAddr where
  ip : Bytes
  port : Nat
  deriving DecidableEq, Repr

/-- `SocketAddr::set_port` (used in the announce_peer handler). -/
def SockAddr.set_port (a : SockAddr) (p : Nat) : SockAddr :=
  { a with port := p }

/-- `Node`: an id together with a socket address. -/
structure Node where
  id : NodeId
  address : SockAddr
  deriving DecidableEq, Repr

/-- `NodeWrapper`: a routing-table entry with liveness metadata
(`last_seen`, `last_verified`). -/
structure NodeWrapper where
  node : Node
  last_seen : Nat
  last_verified : Option Nat
  deriving DecidableEq, Repr

/-! ## CRC32-Castagnoli (external `crc` crate, `crc32::Digest` with
`crc32::CASTAGNOLI`)

The crate computes the standard reflected CRC-32C: initial value `0xFFFFFFFF`,
reversed polynomial `0x82F63B78`, output complemented.  `Digest::new` starts a
streaming computation, `write` feeds bytes, `sum32` reads the checksum; the
streaming state is kept so that consecutive `write`s agree with a single `write`
of the concatenation. -/

/-- The reversed CRC-32C polynomial (`crc32::CASTAGNOLI = 0x82F63B78`). -/
def CASTAGNOLI : Nat := 0x82F63B78

/-- One bit-step of the reflected CRC shift register. -/
def crcBitStep (c : Nat) : Nat :=
  if c % 2 = 1 then (c / 2) ^^^ CASTAGNOLI else c / 2

/-- Absorb one input byte: xor it into the low bits, then shift eight times. -/
def crcByteStep (c b : Nat) : Nat :=
  crcBitStep (crcBitStep (crcBitStep (crcBitStep
    (crcBitStep (crcBitStep (crcBitStep (crcBitStep (c ^^^ b % 256))))))))

/-- Raw (un-complemented) CRC state after absorbing `bytes`. -/
def crcRawUpdate (c : Nat) (bytes : Bytes) : Nat :=
  bytes.foldl crcByteStep c

/-- The CRC32-Castagnoli checksum of a byte string. -/
def crc32c (bytes : Bytes) : Nat :=
  crcRawUpdate 0xFFFFFFFF bytes ^^^ 0xFFFFFFFF

/-- Streaming digest (`crc32::Digest`): stores the checksum-so-far with the
final complement already applied, exactly like the crate's public `sum32`. -/
structure Digest where
  value : Nat
  deriving Repr

/-- `crc32::Digest::new(CASTAGNOLI)`. -/
def Digest.new : Digest := ⟨0⟩

/-- `Hasher32::write`: feed more bytes into the digest. -/
def Digest.write (d : Digest) (bytes : Bytes) : Digest :=
  ⟨crcRawUpdate (d.value ^^^ 0xFFFFFFFF) bytes ^^^ 0xFFFFFFFF⟩

/-- `Hasher32::sum32`: read the current checksum. -/
def Digest.sum32 (d : Digest) : Nat := d.value

/-- `u32::to_be_bytes`. -/
def toBeBytes (n : Nat) : Bytes :=
  [n / 2 ^ 24 % 256, n / 2 ^ 16 % 256, n / 2 ^ 8 % 256, n % 256]

/-- `calculate_token` (dht.rs lines 991-1004): CRC32C digest over the IP octets
then the secret, returned as the big-endian bytes of the 32-bit sum. -/
def calculate_token (remote : SockAddr) (secret : Bytes) : Bytes :=
  let octets := remote.ip
  let digest := (Digest.new.write octets).write secret
  toBeBytes digest.sum32

/-- Big-endian decoding of a byte string (to read `toBeBytes` back). -/
def beVal (bs : Bytes) : Nat :=
  bs.foldl (fun acc b => acc * 256 + b) 0

/-! ## Error kinds

Modelled from the spec (§7) and the variants matched in dht.rs: `errors.rs` is
not under the inspected source.  Payloads (anyhow messages) are dropped since
the code only ever matches on the variant. -/

/-- Modelled from the spec: the five error kinds of `RustyDHTError`
(`PacketParse`, `Conntrack`, `Timeout`, `Shutdown`, `General`). -/
inductive RustyDHTError where
  | packetParseError
  | conntrackError
  | timeoutError
  | shutdownError
  | generalError
  deriving DecidableEq, Repr

/-! ## Settings, peer storage, node storage -/

/-- `DHTSettings` (fields read by dht.rs; the `routers` hostname list is not
represented as no claim mentions it). -/
structure DHTSettings where
  token_secret_size : Nat
  max_torrents : Nat
  max_peers_per_torrent : Nat
  max_peers_response : Nat
  max_sample_response : Nat
  min_sample_interval_secs : Nat
  get_peers_freshness_secs : Nat
  ping_check_interval_secs : Nat
  reverify_interval_secs : Nat
  reverify_grace_period_secs : Nat
  verify_grace_period_secs : Nat
  find_nodes_interval_secs : Nat
  find_nodes_skip_count : Nat
  router_ping_interval_secs : Nat
  read_only : Bool
  deriving DecidableEq, Repr

/-- `PeerInfo`: an announced peer socket plus the time of its announce. -/
structure PeerInfo where
  addr : SockAddr
  last_updated : Nat
  deriving DecidableEq, Repr

/-- Modelled from the spec: `PeerStorage` (storage/peer_storage.rs is not under
the inspected source).  "Bounded mapping InfoHash → ordered set of SocketAddr
with announce timestamp."  An announce replaces any previous record of the same
(info_hash, addr) pair.  The two caps (`max_info_hashes`,
`max_peers_per_info_hash`) evict OLDEST entries first and so never remove the
entry being announced; they are not represented because every claim below only
concerns the newest entries or emptiness of filtered views. -/
structure PeerStorage where
  entries : List (NodeId × PeerInfo)
  deriving DecidableEq, Repr

/-- Modelled from the spec: `PeerStorage::announce_peer(info_hash, addr)`. -/
def PeerStorage.announce_peer (ps : PeerStorage) (info_hash : NodeId)
    (addr : SockAddr) (now : Nat) : PeerStorage :=
  ⟨(info_hash, ⟨addr, now⟩) ::
    ps.entries.filter (fun e => ! (e.1 == info_hash && e.2.addr == addr))⟩

/-- Modelled from the spec: `PeerStorage::get_peers_info(info_hash,
newer_than?)` — the records for `info_hash`, keeping only those strictly newer
than `newer_than` when it is given. -/
def PeerStorage.get_peers_info (ps : PeerStorage) (info_hash : NodeId)
    (newer_than : Option Nat) : List PeerInfo :=
  (ps.entries.filter (fun e =>
    e.1 == info_hash &&
      match newer_than with
      | none => true
      | some t => Nat.blt t e.2.last_updated)).map (·.2)

/-- Modelled from the spec: `PeerStorage::get_peers` — the addresses of
`get_peers_info`. -/
def PeerStorage.get_peers (ps : PeerStorage) (info_hash : NodeId)
    (newer_than : Option Nat) : List SockAddr :=
  (ps.get_peers_info info_hash newer_than).map (·.addr)

/-- Modelled from the spec: `PeerStorage::get_info_hashes` — the distinct known
info-hashes. -/
def PeerStorage.get_info_hashes (ps : PeerStorage) : List NodeId :=
  (ps.entries.map (·.1)).dedup

/-- Modelled from the spec: `NodeStorage` (storage/node_bucket_storage.rs is
not under the inspected source).  The routing table is abstracted as the two
wrapper collections that `get_all_unverified` and `get_all_verified` return;
bucket structure, capacity, splitting and eviction are not represented because
no claim depends on which nodes the table retains. -/
structure NodeStorageModel where
  unverified : List NodeWrapper
  verified : List NodeWrapper
  deriving DecidableEq, Repr

/-- `NodeStorage::get_all_unverified`. -/
def NodeStorageModel.get_all_unverified (ns : NodeStorageModel) : List NodeWrapper :=
  ns.unverified

/-- `NodeStorage::get_all_verified`. -/
def NodeStorageModel.get_all_verified (ns : NodeStorageModel) : List NodeWrapper :=
  ns.verified

/-- `NodeStorage::count() → (unverified, verified)`. -/
def NodeStorageModel.count (ns : NodeStorageModel) : Nat × Nat :=
  (ns.unverified.length, ns.verified.length)

/-- Comparison of nodes by XOR distance of their ids to `target` (the order
used by `get_nearest_nodes`). -/
def distLE (target : NodeId) (a b : Node) : Prop :=
  a.id ^^^ target ≤ b.id ^^^ target

instance (target : NodeId) : DecidableRel (distLE target) :=
  fun _ _ => Nat.decLe _ _

/-- Modelled from the spec: `NodeStorage::get_nearest_nodes(target, exclude?)`
returns up to 8 verified nodes sorted by ascending XOR distance to `target`,
excluding any node whose id equals `exclude`. -/
def NodeStorageModel.get_nearest_nodes (ns : NodeStorageModel) (target : NodeId)
    (exclude : Option NodeId) : List Node :=
  (List.insertionSort (distLE target)
    ((ns.verified.map (·.node)).filter (fun n =>
      match exclude with
      | none => true
      | some e => ! (n.id == e)))).take 8

/-- Modelled from the spec: `NodeStorage::prune(reverify_grace, verify_grace)`
drops unverified wrappers with `last_seen + verify_grace < now` and verified
wrappers with `last_verified + reverify_grace < now`. -/
def NodeStorageModel.prune (ns : NodeStorageModel)
    (reverify_grace verify_grace now : Nat) : NodeStorageModel :=
  ⟨ns.unverified.filter (fun w => ! Nat.blt (w.last_seen + verify_grace) now),
   ns.verified.filter (fun w =>
     match w.last_verified with
     | some lv => ! Nat.blt (lv + reverify_grace) now
     | none => true)⟩

/-- The update `add_or_update` applies to an existing entry whose id matches:
`last_seen = now` and, when verifying, `last_verified = now`. -/
def NodeWrapper.freshen (w : NodeWrapper) (node : Node) (verified : Bool)
    (now : Nat) : NodeWrapper :=
  if w.node.id == node.id then
    { w with last_seen := now,
             last_verified := if verified then some now else w.last_verified }
  else w

/-- Modelled from the spec: `NodeStorage::add_or_update(node, verified)`
(§4.2) — an existing entry with that id gets `last_seen = now` and, when
`verified` is true, `last_verified = now` and a move to the verified
collection; otherwise the node is inserted.  Bucket capacity and splitting are
elided as for the rest of the model. -/
def NodeStorageModel.add_or_update (ns : NodeStorageModel) (node : Node)
    (verified : Bool) (now : Nat) : NodeStorageModel :=
  let freshen := fun (w : NodeWrapper) => w.freshen node verified now
  if (ns.unverified ++ ns.verified).any (fun w => w.node.id == node.id) then
    if verified then
      ⟨ns.unverified.filter (fun w => ! (w.node.id == node.id)),
       (ns.verified.map freshen) ++
         (ns.unverified.filter (fun w => w.node.id == node.id)).map freshen⟩
    else
      ⟨ns.unverified.map freshen, ns.verified.map freshen⟩
  else
    if verified then
      ⟨ns.unverified, ns.verified ++ [⟨node, now, some now⟩]⟩
    else
      ⟨ns.unverified ++ [⟨node, now, none⟩], ns.verified⟩

/-! ## Subscribers (tokio mpsc channels of capacity 32) -/

/-- A subscriber channel as seen through `try_send`: whether the receiver hung
up, and how many events are queued (capacity 32). -/
structure Subscriber where
  closed : Bool
  queued : Nat
  deriving DecidableEq, Repr

/-- `tokio::sync::mpsc::error::TrySendError`. -/
inductive TrySendError where
  | closedErr
  | fullErr
  deriving DecidableEq, Repr

/-- `Sender::try_send` on a bounded channel of capacity 32. -/
def Subscriber.try_send (s : Subscriber) : Except TrySendError Subscriber :=
  if s.closed then .error .closedErr
  else if 32 ≤ s.queued then .error .fullErr
  else .ok { s with queued := s.queued + 1 }

/-! ## DHT state -/

/-- `DHTState` (dht.rs lines 36-45).  `ip4_source` (a trait object) is
abstracted as its vote data; `buckets` is the `NodeStorageModel` above. -/
structure DHTState where
  ip4_source : List (Nat × Nat)
  our_id : NodeId
  buckets : NodeStorageModel
  peer_storage : PeerStorage
  token_secret : Bytes
  old_token_secret : Bytes
  settings : DHTSettings
  subscribers : List Subscriber
  deriving DecidableEq, Repr

/-! ## BEP-42 id validity (common/id.rs is not under the inspected source) -/

/-- Modelled from the spec (§4.1): is the IPv4 address in a non-public range
(loopback, link-local, RFC1918)?  For such ranges `is_valid_for_ip` returns
true unconditionally. -/
def isNonPublicV4 (ip : Bytes) : Bool :=
  match ip with
  | [a, b, _, _] =>
    a == 127 || a == 10 || (a == 192 && b == 168) ||
      (a == 172 && (decide (16 ≤ b) && decide (b ≤ 31))) || (a == 169 && b == 254)
  | _ => true

/-- Modelled from the spec (§4.1): BEP-42 validity of an id for an IP — mask
the IPv4 address with `[0x03, 0x0f, 0x3f, 0xff]`, put the low 3 bits of the
id's last byte into the top bits of byte 0, CRC32C, and compare the top 21 bits
of the checksum with the top 21 bits of the id.  Non-public ranges and
non-IPv4 addresses validate unconditionally. -/
def idIsValidForIp (id : NodeId) (ip : Bytes) : Bool :=
  match ip with
  | [a, b, c, d] =>
    if isNonPublicV4 [a, b, c, d] then true
    else
      let r := id % 8
      let masked := [a &&& 0x03 ||| r <<< 5, b &&& 0x0f, c &&& 0x3f, d &&& 0xff]
      crc32c masked / 2 ^ 11 == id / 2 ^ 139
  | _ => true

/-! ## KRPC messages (packets.rs is the external codec; message shapes are
modelled from their construction and use in the two inspected files) -/

/-- Arguments of a `ping` request. -/
structure PingArgs where
  requester_id : NodeId
  deriving DecidableEq, Repr

/-- Arguments of a `get_peers` request. -/
structure GetPeersArgs where
  requester_id : NodeId
  info_hash : NodeId
  deriving DecidableEq, Repr

/-- Arguments of a `find_node` request. -/
structure FindNodeArgs where
  requester_id : NodeId
  target : NodeId
  deriving DecidableEq, Repr

/-- Arguments of an `announce_peer` request. -/
structure AnnouncePeerArgs where
  requester_id : NodeId
  info_hash : NodeId
  port : Nat
  implied_port : Option Bool
  token : Bytes
  deriving DecidableEq, Repr

/-- Arguments of a `sample_infohashes` request. -/
structure SampleInfoHashesArgs where
  requester_id : NodeId
  target : NodeId
  deriving DecidableEq, Repr

/-- `RequestSpecific`: the five request variants handled by dht.rs. -/
inductive RequestSpecific where
  | pingRequest (args : PingArgs)
  | getPeersRequest (args : GetPeersArgs)
  | findNodeRequest (args : FindNodeArgs)
  | announcePeerRequest (args : AnnouncePeerArgs)
  | sampleInfoHashesRequest (args : SampleInfoHashesArgs)
  deriving DecidableEq, Repr

/-- `GetPeersResponseValues`: a get_peers reply carries either nearer nodes or
actual peers. -/
inductive GetPeersResponseValues where
  | nodes (nodes : List Node)
  | peers (peers : List SockAddr)
  deriving DecidableEq, Repr

/-- `ResponseSpecific`: the response variants built or consumed by the two
inspected files. -/
inductive ResponseSpecific where
  | pingResponse (responder_id : NodeId)
  | getPeersResponse (responder_id : NodeId) (token : Bytes)
      (values : GetPeersResponseValues)
  | findNodeResponse (responder_id : NodeId) (nodes : List Node)
  | sampleInfoHashesResponse (responder_id : NodeId) (interval : Nat)
      (nodes : List Node) (samples : List NodeId) (num : Nat)
  deriving DecidableEq, Repr

/-- `MessageType`: request, response, or KRPC error. -/
inductive MessageType where
  | request (r : RequestSpecific)
  | response (r : ResponseSpecific)
  | error
  deriving DecidableEq, Repr

/-- `packets::Message` (the fields read by the two inspected files). -/
structure Message where
  transaction_id : Bytes
  message_type : MessageType
  read_only : Option Bool
  requester_ip : Option SockAddr
  deriving DecidableEq, Repr

/-- `Message::get_author_id`: every request and response variant carries its
author's id; KRPC errors carry none. -/
def Message.get_author_id (m : Message) : Option NodeId :=
  match m.message_type with
  | .request (.pingRequest a) => some a.requester_id
  | .request (.getPeersRequest a) => some a.requester_id
  | .request (.findNodeRequest a) => some a.requester_id
  | .request (.announcePeerRequest a) => some a.requester_id
  | .request (.sampleInfoHashesRequest a) => some a.requester_id
  | .response (.pingResponse rid) => some rid
  | .response (.getPeersResponse rid _ _) => some rid
  | .response (.findNodeResponse rid _) => some rid
  | .response (.sampleInfoHashesResponse rid _ _ _ _) => some rid
  | .error => none

/-- `Instant::checked_sub`: `none` exactly on underflow. -/
def checkedSub (a b : Nat) : Option Nat :=
  if b ≤ a then some (a - b) else none

/-- `MessageBuilder::new_ping_response`: responder id, echoed transaction id,
and the requester's observed address. -/
def new_ping_response (sender : NodeId) (tid : Bytes) (req_ip : SockAddr) : Message :=
  ⟨tid, .response (.pingResponse sender), none, some req_ip⟩

/-- `MessageBuilder::new_announce_peer_response`: in this library the
announce_peer reply is a ping (pong) response (see the announce test, which
matches the reply against `PingResponse`). -/
def new_announce_peer_response (sender : NodeId) (tid : Bytes) (req_ip : SockAddr) : Message :=
  new_ping_response sender tid req_ip

/-! ## Request handling (dht.rs lines 322-553) -/

/-- `common_request_handling` (dht.rs lines 326-354): require an author id
(else `PacketParseError`); when that id is BEP-42-valid for the sender's IP
and the sender did not set the read-only flag, upsert the sender as
unverified. -/
def common_request_handling (st : DHTState) (remote_addr : SockAddr)
    (msg : Message) (now : Nat) : Except RustyDHTError DHTState :=
  match msg.get_author_id with
  | none => .error .packetParseError
  | some sender_id =>
    let read_only := match msg.read_only with
      | some ro => ro
      | none => false
    if idIsValidForIp sender_id remote_addr.ip && ! read_only then
      .ok { st with
            buckets := st.buckets.add_or_update ⟨sender_id, remote_addr⟩ false now }
    else
      .ok st

/-- The effective socket address an accepted announce stores (dht.rs lines
459-467): the request's source address itself when `implied_port` is
`Some(true)`, otherwise the source address with its port replaced by
`arguments.port`. -/
def effective_sockaddr (addr : SockAddr) (args : AnnouncePeerArgs) : SockAddr :=
  match args.implied_port with
  | some implied_port => if implied_port then addr else addr.set_port args.port
  | none => addr.set_port args.port

/-- `accept_single_packet` (dht.rs lines 356-553): the per-request dispatch.
Returns the updated state together with the packets passed to
`socket.send_to(reply, addr, dest_id)`, in order.  The random
`partial_shuffle` of the sample_infohashes branch (external rand crate) is
modelled as taking the first `max_sample_response` known info-hashes; no claim
concerns that branch.  Responses and KRPC errors fall through with no
action. -/
def accept_single_packet (st : DHTState) (msg : Message) (addr : SockAddr)
    (now : Nat) :
    Except RustyDHTError (DHTState × List (Message × SockAddr × Option NodeId)) :=
  match msg.message_type with
  | .request (.pingRequest args) => do
    let st ← common_request_handling st addr msg now
    let reply := new_ping_response st.our_id msg.transaction_id addr
    .ok (st, [(reply, addr, some args.requester_id)])
  | .request (.getPeersRequest args) => do
    let st ← common_request_handling st addr msg now
    let newer_than := checkedSub now st.settings.get_peers_freshness_secs
    let peers := (st.peer_storage.get_peers args.info_hash newer_than).take
      st.settings.max_peers_response
    let token := calculate_token addr st.token_secret
    let reply : Message :=
      match peers with
      | [] =>
        let nearest :=
          st.buckets.get_nearest_nodes args.info_hash (some args.requester_id)
        ⟨msg.transaction_id,
         .response (.getPeersResponse st.our_id token (.nodes nearest)),
         none, some addr⟩
      | _ =>
        ⟨msg.transaction_id,
         .response (.getPeersResponse st.our_id token (.peers peers)),
         none, some addr⟩
    .ok (st, [(reply, addr, some args.requester_id)])
  | .request (.findNodeRequest args) => do
    let st ← common_request_handling st addr msg now
    let nearest := st.buckets.get_nearest_nodes args.target (some args.requester_id)
    let reply : Message :=
      ⟨msg.transaction_id, .response (.findNodeResponse st.our_id nearest),
       none, some addr⟩
    .ok (st, [(reply, addr, some args.requester_id)])
  | .request (.announcePeerRequest args) => do
    let st ← common_request_handling st addr msg now
    let is_token_valid :=
      args.token == calculate_token addr st.token_secret ||
        args.token == calculate_token addr st.old_token_secret
    if is_token_valid then
      let sockaddr := effective_sockaddr addr args
      let st :=
        { st with peer_storage :=
            st.peer_storage.announce_peer args.info_hash sockaddr now }
      let reply := new_announce_peer_response st.our_id msg.transaction_id addr
      .ok (st, [(reply, addr, some args.requester_id)])
    else
      .ok (st, [])
  | .request (.sampleInfoHashesRequest args) => do
    let st ← common_request_handling st addr msg now
    let nearest := st.buckets.get_nearest_nodes args.target (some args.requester_id)
    let info_hashes := st.peer_storage.get_info_hashes
    let reply : Message :=
      ⟨msg.transaction_id,
       .response (.sampleInfoHashesResponse st.our_id
         st.settings.min_sample_interval_secs nearest
         (info_hashes.take st.settings.max_sample_response) info_hashes.length),
       none, some addr⟩
    .ok (st, [(reply, addr, some args.requester_id)])
  | .response _ => .ok (st, [])
  | .error => .ok (st, [])

/-- The packets a handler result would send (empty when the handler errored;
used only on results proved to be `.ok`). -/
def sentPackets
    (r : Except RustyDHTError (DHTState × List (Message × SockAddr × Option NodeId))) :
    List (Message × SockAddr × Option NodeId) :=
  match r with
  | .ok (_, sent) => sent
  | .error _ => []

/-- The peer storage of a handler result (falling back to the initial state's
storage when the handler errored; used only on results proved `.ok`). -/
def peerStorageOf (st : DHTState)
    (r : Except RustyDHTError (DHTState × List (Message × SockAddr × Option NodeId))) :
    PeerStorage :=
  match r with
  | .ok (st', _) => st'.peer_storage
  | .error _ => st.peer_storage

/-! ## The accept task (dht.rs lines 268-320) and subscriber fan-out
(lines 555-578) -/

/-- `send_packet_to_subscribers` (dht.rs lines 555-578): `retain` over the
subscriber list, `try_send`-ing the event to each.  A `Closed` error drops the
subscriber; a `Full` error keeps it and loses the event.  Returns the
retained subscribers and how many of them received the event. -/
def send_packet_to_subscribers : List Subscriber → List Subscriber × Nat
  | [] => ([], 0)
  | s :: rest =>
    let tail := send_packet_to_subscribers rest
    match s.try_send with
    | .ok s' => (s' :: tail.1, tail.2 + 1)
    | .error .closedErr => tail
    | .error .fullErr => (s :: tail.1, tail.2)

/-- One iteration of the accept loop's body (dht.rs lines 277-299) for a
datagram from `addr`: drop if the Throttler rejects the source IP
(`throttled` is `check_throttle`'s verdict — the Throttler itself is not
under the inspected source); drop if the source port is 0; dispatch to
`accept_single_packet` unless read-only; then fan the event out to
subscribers.  Returns the state, the packets sent, and whether the fan-out
ran. -/
def accept_iteration (st : DHTState) (msg : Message) (addr : SockAddr)
    (throttled : Bool) (now : Nat) :
    Except RustyDHTError
      (DHTState × List (Message × SockAddr × Option NodeId) × Bool) :=
  if throttled then
    .ok (st, [], false)
  else if addr.port == 0 then
    .ok (st, [], false)
  else do
    let (st, sent) ←
      if ! st.settings.read_only then
        accept_single_packet st msg addr now
      else
        .ok (st, [])
    let fan := send_packet_to_subscribers st.subscribers
    .ok ({ st with subscribers := fan.1 }, sent, true)

/-- What the accept loop (dht.rs lines 300-318) does with its body's result:
keep looping, or propagate the error out of the task. -/
inductive LoopOutcome where
  | keepLooping
  | stop (e : RustyDHTError)
  deriving DecidableEq, Repr

/-- The accept loop's error policy (dht.rs lines 300-318): recover from
`PacketParseError` and `ConntrackError`, propagate everything else. -/
def accept_loop_step : Except RustyDHTError Unit → LoopOutcome
  | .ok _ => .keepLooping
  | .error e =>
    match e with
    | .packetParseError => .keepLooping
    | .conntrackError => .keepLooping
    | e => .stop e

/-! ## Periodic buddy ping (dht.rs lines 580-662) -/

/-- The skip test both ping loops of `periodic_buddy_ping` apply to a wrapper:
skip when `last_verified` exists and is not older than the threshold. -/
def shouldPing (ping_if_older_than : Nat) (w : NodeWrapper) : Bool :=
  match w.last_verified with
  | some lv => Nat.blt lv ping_if_older_than
  | none => true

/-- One round of `periodic_buddy_ping` after the sleep (dht.rs lines
589-660): prune the buckets, then — unless `now - reverify_interval_secs`
underflows — send a fire-and-forget ping to every unverified wrapper and
every verified wrapper passing `shouldPing`.  Returns the pruned state and
the pinged (address, id) pairs in send order. -/
def periodic_buddy_ping_round (st : DHTState) (now : Nat) :
    DHTState × List (SockAddr × Option NodeId) :=
  let pruned := st.buckets.prune st.settings.reverify_grace_period_secs
    st.settings.verify_grace_period_secs now
  let st := { st with buckets := pruned }
  match checkedSub now st.settings.reverify_interval_secs with
  | none => (st, [])
  | some ping_if_older_than =>
    let unverified := st.buckets.get_all_unverified
    let verified := st.buckets.get_all_verified
    (st,
     (unverified.filter (shouldPing ping_if_older_than)).map
        (fun w => (w.node.address, some w.node.id)) ++
       (verified.filter (shouldPing ping_if_older_than)).map
        (fun w => (w.node.address, some w.node.id)))

/-! ## Token secret rotation (dht.rs lines 918-930 and 1006-1010) -/

/-- `make_token_secret(size)`: `size` bytes drawn from the random source. -/
def make_token_secret (size : Nat) (rng : Nat → Nat) : Bytes :=
  (List.range size).map (fun i => rng i % 256)

/-- `rotate_token_secrets` (dht.rs lines 918-930): the current secret becomes
the old one and a fresh random secret of `token_secret_size` bytes becomes
current. -/
def rotate_token_secrets (st : DHTState) (rng : Nat → Nat) : DHTState :=
  let new_token_secret := make_token_secret st.settings.token_secret_size rng
  { st with old_token_secret := st.token_secret, token_secret := new_token_secret }

/-! ## Public get_info_hashes (dht.rs lines 65-74) -/

/-- `DHT::get_info_hashes(newer_than?)`: every known info-hash paired with its
(optionally freshness-filtered) peers, keeping only pairs with at least one
peer. -/
def DHT_get_info_hashes (st : DHTState) (newer_than : Option Nat) :
    List (NodeId × List PeerInfo) :=
  ((st.peer_storage.get_info_hashes).map
    (fun hash => (hash, st.peer_storage.get_peers_info hash newer_than))).filter
    (fun tup => decide (tup.2.length > 0))

/-! ## Outbound requests (dht.rs lines 808-868): the guard of
`common_send_and_handle_response` -/

/-- Modelled from the spec: the transaction table of `DHTSocket`
(dht/socket.rs is not under the inspected source) — outstanding
(transaction id, destination id, destination) reply slots. -/
structure SocketModel where
  transaction_table : List (Bytes × Option NodeId × SockAddr)
  deriving DecidableEq, Repr

/-- `Message::message_type` is a request. -/
def Message.isRequest (m : Message) : Bool :=
  match m.message_type with
  | .request _ => true
  | _ => false

/-- The prefix of `common_send_and_handle_response` (dht.rs lines 808-821) up
to and including its first effect: a non-request message is rejected with a
`GeneralError` before anything is sent and before any state is touched; a
request is serialized and handed to `socket.send_to`, registering a reply slot
under a fresh transaction id (modelled from the spec, the socket not being
under the inspected source). -/
def common_send_and_handle_response_prefix (st : DHTState) (sock : SocketModel)
    (msg : Message) (target : SockAddr) (target_id : Option NodeId)
    (fresh_tid : Bytes) :
    Except RustyDHTError (DHTState × SocketModel × List (Message × SockAddr)) :=
  if ! msg.isRequest then
    .error .generalError
  else
    .ok (st,
         ⟨(fresh_tid, target_id, target) :: sock.transaction_table⟩,
         [({ msg with transaction_id := fresh_tid }, target)])

/-! ## The iterative get_peers operation (operations.rs lines 201-334) and
`GetPeersResult` (lines 336-378) -/

/-- `GetPeersResponder` (operations.rs lines 383-401): a node that answered
get_peers, with the token it returned. -/
structure GetPeersResponder where
  node : Node
  token : Bytes
  deriving DecidableEq, Repr

/-- The outcome of one `send_request` future in the get_peers round loop
(operations.rs lines 273-311): a get_peers response from a node, a reply of
the wrong type, or a send/timeout error. -/
inductive GetPeersReplyEvent where
  | response (responder : Node) (token : Bytes) (values : GetPeersResponseValues)
  | wrongType (responder : Node)
  | failed (e : RustyDHTError)
  deriving DecidableEq, Repr

/-- `HashSet::insert` on the model of `unique_peers` (a list without
duplicates; iteration order of the Rust HashSet is unspecified, so any order
serves). -/
def hashSetInsert (s : List SockAddr) (x : SockAddr) : List SockAddr :=
  if x ∈ s then s else s ++ [x]

/-- The accumulation get_peers performs over every reply it receives across
all rounds (operations.rs lines 273-311): each get_peers response appends one
`GetPeersResponder`; each peer of a peers-carrying response is inserted into
the `unique_peers` set; everything else only logs. -/
def get_peers_accumulate (acc : List SockAddr × List GetPeersResponder)
    (ev : GetPeersReplyEvent) : List SockAddr × List GetPeersResponder :=
  match ev with
  | .response responder token values =>
    let acc := (acc.1, acc.2 ++ [⟨responder, token⟩])
    match values with
    | .nodes _ => acc
    | .peers p => (p.foldl hashSetInsert acc.1, acc.2)
  | .wrongType _ => acc
  | .failed _ => acc

/-- The responder entry a reply event contributes (operations.rs lines
279-282): one `(Node, token)` record per get_peers response, nothing for
wrong-type replies or errors. -/
def responderOf : GetPeersReplyEvent → Option GetPeersResponder
  | .response n t _ => some ⟨n, t⟩
  | .wrongType _ => none
  | .failed _ => none

/-- Comparison of responders by XOR distance of their node's id to the
info-hash (`GetPeersResult::new`'s sort order). -/
def responderDistLE (info_hash : NodeId) (a b : GetPeersResponder) : Prop :=
  a.node.id ^^^ info_hash ≤ b.node.id ^^^ info_hash

instance (info_hash : NodeId) : DecidableRel (responderDistLE info_hash) :=
  fun _ _ => Nat.decLe _ _

/-- `GetPeersResult` (operations.rs lines 336-360). -/
structure GetPeersResult where
  info_hash : NodeId
  peers : List SockAddr
  responders : List GetPeersResponder
  deriving Repr

/-- `GetPeersResult::new`: sorts the responders by ascending XOR distance of
their id to the info-hash. -/
def GetPeersResult.new (info_hash : NodeId) (peers : List SockAddr)
    (responders : List GetPeersResponder) : GetPeersResult :=
  ⟨info_hash, peers, List.insertionSort (responderDistLE info_hash) responders⟩

/-- What the whole get_peers operation returns, as a function of the
chronological list of reply events it observed before its stop condition or
timeout (operations.rs lines 201-334): the accumulated unique peers and the
responders, packed through `GetPeersResult::new`. -/
def get_peers_operation (info_hash : NodeId) (events : List GetPeersReplyEvent) :
    GetPeersResult :=
  let acc := events.foldl get_peers_accumulate ([], [])
  GetPeersResult.new info_hash acc.1 acc.2

/-- The fan-out flag of an accept-iteration result (`false` when the body
errored before reaching the fan-out). -/
def fanRan
    (r : Except RustyDHTError
      (DHTState × List (Message × SockAddr × Option NodeId) × Bool)) : Bool :=
  match r with
  | .ok (_, _, fan) => fan
  | .error _ => false

instance (info_hash : NodeId) : IsTotal GetPeersResponder (responderDistLE info_hash) :=
  ⟨fun _ _ => Nat.le_total _ _⟩

instance (info_hash : NodeId) : IsTrans GetPeersResponder (responderDistLE info_hash) :=
  ⟨fun _ _ _ => Nat.le_trans⟩

/-! ## Concrete fixtures used by witnesses and counterexamples -/

/-- A small concrete settings record. -/
def exSettings : DHTSettings :=
  { token_secret_size := 2, max_torrents := 8, max_peers_per_torrent := 8,
    max_peers_response := 4, max_sample_response := 4,
    min_sample_interval_secs := 10, get_peers_freshness_secs := 10,
    ping_check_interval_secs := 10, reverify_interval_secs := 10,
    reverify_grace_period_secs := 100, verify_grace_period_secs := 100,
    find_nodes_interval_secs := 33, find_nodes_skip_count := 32,
    router_ping_interval_secs := 900, read_only := false }

/-- A concrete requester address. -/
def exAddr : SockAddr := ⟨[1, 2, 3, 4], 5⟩

/-- A concrete stored peer address. -/
def exPeerAddr : SockAddr := ⟨[9, 9, 9, 9], 7⟩

/-- A small concrete DHT state: empty routing table and peer storage, token
secrets `[1]` (current) and `[2]` (old). -/
def exState : DHTState :=
  { ip4_source := [], our_id := 7, buckets := ⟨[], []⟩, peer_storage := ⟨[]⟩,
    token_secret := [1], old_token_secret := [2], settings := exSettings,
    subscribers := [] }

/-- A state whose peer storage has one fresh peer for info-hash 5 but whose
`max_peers_response` is 0. -/
def exStateMaxZero : DHTState :=
  { exState with
    peer_storage := ⟨[(5, ⟨exPeerAddr, 100⟩)]⟩,
    settings := { exSettings with max_peers_response := 0 } }

/-- An unverified routing-table wrapper that was in fact verified recently
(`last_verified = some 99`): the "backup" case the buddy-ping loop skips. -/
def exRecentWrapper : NodeWrapper := ⟨⟨11, ⟨[8, 8, 8, 8], 9⟩⟩, 100, some 99⟩

/-- A state whose unverified collection holds only `exRecentWrapper`. -/
def exStateRecent : DHTState :=
  { exState with buckets := ⟨[exRecentWrapper], []⟩ }

/-- A state with one peer stored for info-hash 5 (fresh at time 100). -/
def exStateOnePeer : DHTState :=
  { exState with peer_storage := ⟨[(5, ⟨exPeerAddr, 100⟩)]⟩ }

/-- A concrete ping request message. -/
def exPingMsg : Message :=
  ⟨[0xaa], .request (.pingRequest ⟨3⟩), none, none⟩

/-- A concrete KRPC error message (not a request). -/
def exErrorMsg : Message := ⟨[0xaa], .error, none, none⟩

/-! # Theorems -/

set_option maxRecDepth 100000 in
/-- Sanity check: CRC-32C of the ASCII bytes of the string of digits one
through nine is the published test vector 0xE3069283. -/
theorem crc32c_test_vector :
    crc32c [0x31, 0x32, 0x33, 0x34, 0x35, 0x36, 0x37, 0x38, 0x39] = 0xE3069283 := by
  decide

theorem xor_lt_two_pow_32 {x y : Nat} (hx : x < 2 ^ 32) (hy : y < 2 ^ 32) :
    x ^^^ y < 2 ^ 32 :=
  Nat.bitwise_lt hx hy

theorem crcBitStep_lt {c : Nat} (h : c < 2 ^ 32) : crcBitStep c < 2 ^ 32 := by
  unfold crcBitStep
  split
  · exact xor_lt_two_pow_32 (by omega) (by norm_num [CASTAGNOLI])
  · omega

theorem crcByteStep_lt {c : Nat} (b : Nat) (h : c < 2 ^ 32) :
    crcByteStep c b < 2 ^ 32 := by
  have h0 : c ^^^ b % 256 < 2 ^ 32 :=
    xor_lt_two_pow_32 h (by have := Nat.mod_lt b (show 0 < 256 by norm_num) ; omega)
  exact crcBitStep_lt (crcBitStep_lt (crcBitStep_lt (crcBitStep_lt
    (crcBitStep_lt (crcBitStep_lt (crcBitStep_lt (crcBitStep_lt h0)))))))

theorem crcRawUpdate_lt (bytes : Bytes) : ∀ {c : Nat}, c < 2 ^ 32 →
    crcRawUpdate c bytes < 2 ^ 32 := by
  induction bytes with
  | nil => intro c h ; exact h
  | cons b bs ih => intro c h ; exact ih (crcByteStep_lt b h)

theorem crc32c_lt (bytes : Bytes) : crc32c bytes < 2 ^ 32 :=
  xor_lt_two_pow_32 (crcRawUpdate_lt bytes (by norm_num)) (by norm_num)

/-- Streaming two `write`s into a fresh digest equals the one-shot CRC32C of
the concatenation (this is why `calculate_token` computes the CRC32C of the
ip octets with the secret appended even though the source writes the two
slices separately). -/
theorem digest_write_write (a b : Bytes) :
    ((Digest.new.write a).write b).sum32 = crc32c (a ++ b) := by
  simp only [Digest.new, Digest.write, Digest.sum32, crc32c, crcRawUpdate,
    List.foldl_append, Nat.zero_xor, Nat.xor_cancel_right]

theorem beVal_toBeBytes {n : Nat} (h : n < 2 ^ 32) : beVal (toBeBytes n) = n := by
  simp only [beVal, toBeBytes, List.foldl]
  omega

/-- C5: for every socket address and secret, `calculate_token(addr, secret)` is
the CRC32-Castagnoli checksum of the address's IP octets concatenated with the
secret, exactly 4 bytes, in big-endian byte order. -/
theorem calculate_token_is_crc32c_bigendian (addr : SockAddr) (secret : Bytes) :
    calculate_token addr secret = toBeBytes (crc32c (addr.ip ++ secret)) ∧
    (calculate_token addr secret).length = 4 ∧
    beVal (calculate_token addr secret) = crc32c (addr.ip ++ secret) := by
  have hw : calculate_token addr secret = toBeBytes (crc32c (addr.ip ++ secret)) := by
    show toBeBytes ((Digest.new.write addr.ip).write secret).sum32 = _
    rw [digest_write_write]
  refine ⟨hw, ?_, ?_⟩
  · rw [hw] ; rfl
  · rw [hw] ; exact beVal_toBeBytes (crc32c_lt _)

/-! ## Shared lemmas about request handling -/

theorem freshen_preserves_node (w : NodeWrapper) (node : Node)
    (verified : Bool) (now : Nat) :
    (w.freshen node verified now).node = w.node := by
  unfold NodeWrapper.freshen
  split <;> rfl

theorem get_nearest_nodes_congr (ns ns' : NodeStorageModel) (target : NodeId)
    (exclude : Option NodeId)
    (h : ns.verified.map (·.node) = ns'.verified.map (·.node)) :
    ns.get_nearest_nodes target exclude = ns'.get_nearest_nodes target exclude := by
  unfold NodeStorageModel.get_nearest_nodes
  rw [h]

theorem add_or_update_false_verified_nodes (ns : NodeStorageModel)
    (node : Node) (now : Nat) :
    ((ns.add_or_update node false now).verified).map (·.node) =
      ns.verified.map (·.node) := by
  unfold NodeStorageModel.add_or_update
  dsimp only
  split
  · rw [if_neg (by simp)]
    dsimp only
    rw [List.map_map]
    exact List.map_congr_left (fun w _ => freshen_preserves_node w node false now)
  · rw [if_neg (by simp)]

theorem add_or_update_false_get_nearest (ns : NodeStorageModel) (node : Node)
    (now : Nat) (target : NodeId) (exclude : Option NodeId) :
    (ns.add_or_update node false now).get_nearest_nodes target exclude =
      ns.get_nearest_nodes target exclude :=
  get_nearest_nodes_congr _ _ _ _ (add_or_update_false_verified_nodes ns node now)

theorem common_request_handling_ok (st : DHTState) (addr : SockAddr)
    (msg : Message) (now : Nat) (sid : NodeId)
    (h : msg.get_author_id = some sid) :
    ∃ stc, common_request_handling st addr msg now = .ok stc ∧
      stc.our_id = st.our_id ∧
      stc.peer_storage = st.peer_storage ∧
      stc.token_secret = st.token_secret ∧
      stc.old_token_secret = st.old_token_secret ∧
      stc.settings = st.settings ∧
      stc.subscribers = st.subscribers ∧
      (∀ t e, stc.buckets.get_nearest_nodes t e = st.buckets.get_nearest_nodes t e) := by
  unfold common_request_handling
  rw [h]
  dsimp only
  split
  · exact ⟨_, rfl, rfl, rfl, rfl, rfl, rfl, rfl,
      fun t e => add_or_update_false_get_nearest st.buckets ⟨sid, addr⟩ now t e⟩
  · exact ⟨st, rfl, rfl, rfl, rfl, rfl, rfl, rfl, fun t e => rfl⟩

theorem implied_port_effective (addr : SockAddr) (args : AnnouncePeerArgs) :
    effective_sockaddr addr args =
      (if args.implied_port = some true then addr else addr.set_port args.port) := by
  unfold effective_sockaddr
  rcases args.implied_port with _ | b
  · simp
  · cases b <;> simp

/-! ## C1: announce_peer token gate -/

/-- C1: an incoming announce_peer request is accepted iff its token equals
`calculate_token(addr, current_secret)` or `calculate_token(addr,
old_secret)`; on accept the peer is stored under the request's info-hash with
effective port `addr.port()` when `implied_port` is `Some(true)` and
`arguments.port` otherwise, and a pong reply is sent; on reject nothing is
sent and the peer storage is unchanged. -/
theorem announce_peer_token_gate (st : DHTState) (addr : SockAddr)
    (args : AnnouncePeerArgs) (tid : Bytes) (ro : Option Bool)
    (rip : Option SockAddr) (now : Nat) :
    (accept_single_packet st ⟨tid, .request (.announcePeerRequest args), ro, rip⟩
        addr now).isOk = true ∧
    (sentPackets (accept_single_packet st
        ⟨tid, .request (.announcePeerRequest args), ro, rip⟩ addr now) ≠ [] ↔
      (args.token = calculate_token addr st.token_secret ∨
        args.token = calculate_token addr st.old_token_secret)) ∧
    ((args.token = calculate_token addr st.token_secret ∨
        args.token = calculate_token addr st.old_token_secret) →
      peerStorageOf st (accept_single_packet st
          ⟨tid, .request (.announcePeerRequest args), ro, rip⟩ addr now) =
        st.peer_storage.announce_peer args.info_hash
          (if args.implied_port = some true then addr else addr.set_port args.port)
          now ∧
      (args.info_hash,
        PeerInfo.mk
          (if args.implied_port = some true then addr else addr.set_port args.port)
          now) ∈
        (peerStorageOf st (accept_single_packet st
          ⟨tid, .request (.announcePeerRequest args), ro, rip⟩ addr now)).entries ∧
      sentPackets (accept_single_packet st
          ⟨tid, .request (.announcePeerRequest args), ro, rip⟩ addr now) =
        [(new_announce_peer_response st.our_id tid addr, addr,
          some args.requester_id)]) ∧
    (¬ (args.token = calculate_token addr st.token_secret ∨
        args.token = calculate_token addr st.old_token_secret) →
      peerStorageOf st (accept_single_packet st
          ⟨tid, .request (.announcePeerRequest args), ro, rip⟩ addr now) =
        st.peer_storage ∧
      sentPackets (accept_single_packet st
          ⟨tid, .request (.announcePeerRequest args), ro, rip⟩ addr now) = []) := by
  obtain ⟨stc, hok, hid, hps, hts, hots, hset, hsubs, hnear⟩ :=
    common_request_handling_ok st addr
      ⟨tid, .request (.announcePeerRequest args), ro, rip⟩ now args.requester_id rfl
  have hred : accept_single_packet st
      ⟨tid, .request (.announcePeerRequest args), ro, rip⟩ addr now =
      (if args.token == calculate_token addr stc.token_secret ||
          args.token == calculate_token addr stc.old_token_secret then
        .ok
          ({ stc with
              peer_storage :=
                stc.peer_storage.announce_peer args.info_hash
                  (effective_sockaddr addr args) now },
            [(new_announce_peer_response stc.our_id tid addr, addr,
              some args.requester_id)])
      else .ok (stc, [])) := by
    unfold accept_single_packet
    rw [hok]
    rfl
  rw [hts, hots, hps, hid, implied_port_effective] at hred
  by_cases hv : args.token = calculate_token addr st.token_secret ∨
      args.token = calculate_token addr st.old_token_secret
  · have hb : (args.token == calculate_token addr st.token_secret ||
        args.token == calculate_token addr st.old_token_secret) = true := by
      rcases hv with h | h <;> simp [h]
    rw [if_pos hb] at hred
    refine ⟨by rw [hred] ; rfl, ⟨fun _ => hv, fun _ => by rw [hred] ; simp [sentPackets]⟩,
      fun _ => ⟨?_, ?_, ?_⟩, fun hw => absurd hv hw⟩
    · rw [hred] ; simp [peerStorageOf, hps]
    · rw [hred]
      simp only [peerStorageOf, PeerStorage.announce_peer, hps]
      exact List.mem_cons_self _ _
    · rw [hred] ; simp [sentPackets]
  · have hb : (args.token == calculate_token addr st.token_secret ||
        args.token == calculate_token addr st.old_token_secret) = false := by
      simp only [Bool.or_eq_false_iff, beq_eq_false_iff_ne, ne_eq]
      exact ⟨fun h => hv (Or.inl h), fun h => hv (Or.inr h)⟩
    rw [if_neg (by simp [hb])] at hred
    refine ⟨by rw [hred] ; rfl,
      ⟨fun hne => False.elim (hne (by rw [hred] ; simp [sentPackets])),
        fun h => absurd h hv⟩,
      fun h => absurd h hv,
      fun _ => ⟨by rw [hred] ; simp [peerStorageOf, hps], by rw [hred] ; simp [sentPackets]⟩⟩

set_option maxRecDepth 100000 in
/-- Witness for C1: a concrete announce with a token minted from the current
secret is accepted, the pong goes out, and the peer lands in storage under
the argument port (implied_port absent). -/
theorem announce_peer_token_gate_witness :
    sentPackets (accept_single_packet exState
        ⟨[0xaa],
         .request (.announcePeerRequest ⟨3, 5, 1234, none, calculate_token exAddr [1]⟩),
         none, none⟩ exAddr 50) =
      [(new_announce_peer_response exState.our_id [0xaa] exAddr, exAddr, some 3)] ∧
    (5, PeerInfo.mk (exAddr.set_port 1234) 50) ∈
      (peerStorageOf exState (accept_single_packet exState
        ⟨[0xaa],
         .request (.announcePeerRequest ⟨3, 5, 1234, none, calculate_token exAddr [1]⟩),
         none, none⟩ exAddr 50)).entries := by
  have h := announce_peer_token_gate exState exAddr
    ⟨3, 5, 1234, none, calculate_token exAddr [1]⟩ [0xaa] none none 50
  obtain ⟨-, -, h3, -⟩ := h
  obtain ⟨-, hmem, hsent⟩ := h3 (Or.inl rfl)
  refine ⟨hsent, ?_⟩
  simpa using hmem

/-! ## C2: get_peers replies -/

/-- C2 (as amended): every get_peers reply carries
`token = calculate_token(addr, current_secret)` and leaves peer storage
unchanged; it carries peers exactly when the storage has a fresh peer for the
info-hash AND `max_peers_response` is nonzero (up to `max_peers_response` of
them), and otherwise carries the up-to-8 nearest verified nodes excluding the
requester's id. -/
theorem get_peers_reply_spec (st : DHTState) (addr : SockAddr)
    (args : GetPeersArgs) (tid : Bytes) (ro : Option Bool)
    (rip : Option SockAddr) (now : Nat) :
    (accept_single_packet st ⟨tid, .request (.getPeersRequest args), ro, rip⟩
        addr now).isOk = true ∧
    peerStorageOf st (accept_single_packet st
        ⟨tid, .request (.getPeersRequest args), ro, rip⟩ addr now) =
      st.peer_storage ∧
    sentPackets (accept_single_packet st
        ⟨tid, .request (.getPeersRequest args), ro, rip⟩ addr now) =
      [(⟨tid,
         .response (.getPeersResponse st.our_id
           (calculate_token addr st.token_secret)
           (if st.peer_storage.get_peers args.info_hash
                (checkedSub now st.settings.get_peers_freshness_secs) = [] ∨
              st.settings.max_peers_response = 0 then
             GetPeersResponseValues.nodes
               (st.buckets.get_nearest_nodes args.info_hash (some args.requester_id))
           else
             GetPeersResponseValues.peers
               ((st.peer_storage.get_peers args.info_hash
                 (checkedSub now st.settings.get_peers_freshness_secs)).take
                 st.settings.max_peers_response))),
         none, some addr⟩, addr, some args.requester_id)] := by
  obtain ⟨stc, hok, hid, hps, hts, hots, hset, hsubs, hnear⟩ :=
    common_request_handling_ok st addr
      ⟨tid, .request (.getPeersRequest args), ro, rip⟩ now args.requester_id rfl
  have hred : accept_single_packet st
      ⟨tid, .request (.getPeersRequest args), ro, rip⟩ addr now =
      .ok (stc,
        [((match (stc.peer_storage.get_peers args.info_hash
              (checkedSub now stc.settings.get_peers_freshness_secs)).take
              stc.settings.max_peers_response with
           | [] =>
             (⟨tid,
               .response (.getPeersResponse stc.our_id
                 (calculate_token addr stc.token_secret)
                 (GetPeersResponseValues.nodes
                   (stc.buckets.get_nearest_nodes args.info_hash
                     (some args.requester_id)))),
               none, some addr⟩ : Message)
           | _ =>
             ⟨tid,
              .response (.getPeersResponse stc.our_id
                (calculate_token addr stc.token_secret)
                (GetPeersResponseValues.peers
                  ((stc.peer_storage.get_peers args.info_hash
                    (checkedSub now stc.settings.get_peers_freshness_secs)).take
                    stc.settings.max_peers_response))),
              none, some addr⟩),
          addr, some args.requester_id)]) := by
    unfold accept_single_packet
    rw [hok]
    rfl
  rw [hts, hps, hid, hset, hnear] at hred
  refine ⟨by rw [hred] ; rfl, by rw [hred] ; simp [peerStorageOf, hps], ?_⟩
  by_cases hpe : (st.peer_storage.get_peers args.info_hash
      (checkedSub now st.settings.get_peers_freshness_secs)).take
      st.settings.max_peers_response = []
  · have hcond : st.peer_storage.get_peers args.info_hash
        (checkedSub now st.settings.get_peers_freshness_secs) = [] ∨
        st.settings.max_peers_response = 0 := by
      rcases List.take_eq_nil_iff.mp hpe with h | h
      · exact Or.inr h
      · exact Or.inl h
    rw [hred, hpe]
    simp only [sentPackets, if_pos hcond]
  · have hcond : ¬ (st.peer_storage.get_peers args.info_hash
        (checkedSub now st.settings.get_peers_freshness_secs) = [] ∨
        st.settings.max_peers_response = 0) := by
      intro h
      apply hpe
      rcases h with h | h
      · exact List.take_eq_nil_iff.mpr (Or.inr h)
      · exact List.take_eq_nil_iff.mpr (Or.inl h)
    obtain ⟨x, xs, hx⟩ := List.exists_cons_of_ne_nil hpe
    rw [hred, hx]
    simp only [sentPackets, if_neg hcond, hx]

set_option maxRecDepth 1000000 in
/-- Counterexample to C2 as stated: with `max_peers_response = 0`, peer
storage holds a fresh peer for info-hash 5 at the time of the request, yet
the reply carries the nearest-nodes variant, not peers. -/
theorem get_peers_reply_counterexample :
    exStateMaxZero.peer_storage.get_peers 5
        (checkedSub 100 exStateMaxZero.settings.get_peers_freshness_secs) =
      [exPeerAddr] ∧
    sentPackets (accept_single_packet exStateMaxZero
        ⟨[0xaa], .request (.getPeersRequest ⟨3, 5⟩), none, none⟩ exAddr 100) =
      [(⟨[0xaa],
         .response (.getPeersResponse exStateMaxZero.our_id
           (calculate_token exAddr exStateMaxZero.token_secret)
           (GetPeersResponseValues.nodes [])),
         none, some exAddr⟩, exAddr, some 3)] := by
  constructor
  · decide
  · decide

/-! ## C3: buddy-ping rounds -/

/-- C3 (as amended): in every buddy-ping round the buckets are pruned first;
if `now - reverify_interval_secs` underflows no pings are sent; otherwise a
ping is sent exactly for the pruned wrappers — unverified and verified
alike — whose `last_verified` is absent or strictly older than
`now - reverify_interval_secs` (so an unverified wrapper with a recent
`last_verified`, a "verified backup", is skipped). -/
theorem periodic_buddy_ping_round_spec (st : DHTState) (now : Nat) :
    (periodic_buddy_ping_round st now).1.buckets =
      st.buckets.prune st.settings.reverify_grace_period_secs
        st.settings.verify_grace_period_secs now ∧
    (checkedSub now st.settings.reverify_interval_secs = none →
      (periodic_buddy_ping_round st now).2 = []) ∧
    (∀ th, checkedSub now st.settings.reverify_interval_secs = some th →
      (periodic_buddy_ping_round st now).2 =
        (((st.buckets.prune st.settings.reverify_grace_period_secs
            st.settings.verify_grace_period_secs now).get_all_unverified.filter
          (fun w => w.last_verified.elim true (fun lv => decide (lv < th)))).map
          (fun w => (w.node.address, some w.node.id))) ++
        (((st.buckets.prune st.settings.reverify_grace_period_secs
            st.settings.verify_grace_period_secs now).get_all_verified.filter
          (fun w => w.last_verified.elim true (fun lv => decide (lv < th)))).map
          (fun w => (w.node.address, some w.node.id)))) := by
  have hsp : ∀ th (w : NodeWrapper),
      shouldPing th w = w.last_verified.elim true (fun lv => decide (lv < th)) := by
    intro th w
    unfold shouldPing
    rcases w.last_verified with _ | lv
    · rfl
    · show Nat.blt lv th = decide (lv < th)
      by_cases hlt : lv < th
      · rw [decide_eq_true hlt]
        exact Nat.blt_eq.mpr hlt
      · rw [decide_eq_false hlt]
        exact Bool.eq_false_iff.mpr (fun hc => hlt (Nat.blt_eq.mp hc))
  unfold periodic_buddy_ping_round
  dsimp only
  cases checkedSub now st.settings.reverify_interval_secs with
  | none =>
    exact ⟨rfl, fun _ => rfl, fun th h => Option.noConfusion h⟩
  | some th =>
    refine ⟨rfl, fun h => Option.noConfusion h, fun th' h => ?_⟩
    have hth : th = th' := Option.some.inj h
    subst hth
    dsimp only
    congr 1
    · congr 1
      exact List.filter_congr (fun w _ => hsp th w)
    · congr 1
      exact List.filter_congr (fun w _ => hsp th w)

set_option maxRecDepth 100000 in
/-- Counterexample to C3 as stated: `exRecentWrapper` is returned by
`get_all_unverified()` in a round with no clock underflow, yet no ping is
sent for it, because its `last_verified` (99) is not older than
`now - reverify_interval = 90`. -/
theorem periodic_buddy_ping_counterexample :
    checkedSub 100 exStateRecent.settings.reverify_interval_secs = some 90 ∧
    (periodic_buddy_ping_round exStateRecent 100).1.buckets.get_all_unverified =
      [exRecentWrapper] ∧
    (periodic_buddy_ping_round exStateRecent 100).2 = [] := by
  refine ⟨by decide, by decide, by decide⟩

/-- Witness for C3: applying the round theorem at the concrete state with one
recent-backup unverified wrapper, the no-underflow branch yields the empty
ping list. -/
theorem periodic_buddy_ping_round_spec_witness :
    (periodic_buddy_ping_round exStateRecent 100).2 =
      (((exStateRecent.buckets.prune
          exStateRecent.settings.reverify_grace_period_secs
          exStateRecent.settings.verify_grace_period_secs 100).get_all_unverified.filter
        (fun w => w.last_verified.elim true (fun lv => decide (lv < 90)))).map
        (fun w => (w.node.address, some w.node.id))) ++
      (((exStateRecent.buckets.prune
          exStateRecent.settings.reverify_grace_period_secs
          exStateRecent.settings.verify_grace_period_secs 100).get_all_verified.filter
        (fun w => w.last_verified.elim true (fun lv => decide (lv < 90)))).map
        (fun w => (w.node.address, some w.node.id))) :=
  (periodic_buddy_ping_round_spec exStateRecent 100).2.2 90 (by decide)

/-! ## C4: subscriber fan-out -/

theorem accept_single_packet_ok (st : DHTState) (msg : Message)
    (addr : SockAddr) (now : Nat) :
    ∃ r, accept_single_packet st msg addr now = .ok r := by
  obtain ⟨tid, mt, ro, rip⟩ := msg
  cases mt with
  | request r =>
    cases r with
    | pingRequest args =>
      obtain ⟨stc, hok, -⟩ := common_request_handling_ok st addr
        ⟨tid, .request (.pingRequest args), ro, rip⟩ now args.requester_id rfl
      exact ⟨_, by
        unfold accept_single_packet
        rw [hok]
        rfl⟩
    | getPeersRequest args =>
      obtain ⟨stc, hok, -⟩ := common_request_handling_ok st addr
        ⟨tid, .request (.getPeersRequest args), ro, rip⟩ now args.requester_id rfl
      exact ⟨_, by
        unfold accept_single_packet
        rw [hok]
        rfl⟩
    | findNodeRequest args =>
      obtain ⟨stc, hok, -⟩ := common_request_handling_ok st addr
        ⟨tid, .request (.findNodeRequest args), ro, rip⟩ now args.requester_id rfl
      exact ⟨_, by
        unfold accept_single_packet
        rw [hok]
        rfl⟩
    | announcePeerRequest args =>
      obtain ⟨stc, hok, -⟩ := common_request_handling_ok st addr
        ⟨tid, .request (.announcePeerRequest args), ro, rip⟩ now args.requester_id rfl
      have hred : accept_single_packet st
          ⟨tid, .request (.announcePeerRequest args), ro, rip⟩ addr now =
          (if args.token == calculate_token addr stc.token_secret ||
              args.token == calculate_token addr stc.old_token_secret then
            .ok
              ({ stc with
                  peer_storage :=
                    stc.peer_storage.announce_peer args.info_hash
                      (effective_sockaddr addr args) now },
                [(new_announce_peer_response stc.our_id tid addr, addr,
                  some args.requester_id)])
          else .ok (stc, [])) := by
        unfold accept_single_packet
        rw [hok]
        rfl
      rw [hred]
      by_cases hv : (args.token == calculate_token addr stc.token_secret ||
          args.token == calculate_token addr stc.old_token_secret) = true
      · exact ⟨_, if_pos hv⟩
      · exact ⟨_, if_neg hv⟩
    | sampleInfoHashesRequest args =>
      obtain ⟨stc, hok, -⟩ := common_request_handling_ok st addr
        ⟨tid, .request (.sampleInfoHashesRequest args), ro, rip⟩ now args.requester_id rfl
      exact ⟨_, by
        unfold accept_single_packet
        rw [hok]
        rfl⟩
  | response r => exact ⟨(st, []), rfl⟩
  | error => exact ⟨(st, []), rfl⟩

/-- C4 (as amended): a subscriber `MessageReceived` fan-out happens for an
inbound datagram exactly when the Throttler does not drop it and its source
port is nonzero — independent of read-only mode; packets the throttler drops
and port-0 packets produce no subscriber event.  When the fan-out runs, every
open, non-full subscriber channel receives the event (its queue grows by
one), full subscribers are kept but miss the event, and closed subscribers
are removed. -/
theorem accept_iteration_fanout (st : DHTState) (msg : Message)
    (addr : SockAddr) (throttled : Bool) (now : Nat) :
    fanRan (accept_iteration st msg addr throttled now) =
      (!throttled && !(addr.port == 0)) ∧
    (∀ subs : List Subscriber,
      (send_packet_to_subscribers subs).1 =
        subs.filterMap (fun s =>
          if s.closed then none
          else if 32 ≤ s.queued then some s
          else some { s with queued := s.queued + 1 }) ∧
      (send_packet_to_subscribers subs).2 =
        (subs.filter (fun s => ! s.closed && decide (s.queued < 32))).length) := by
  constructor
  · cases throttled with
    | true => rfl
    | false =>
      unfold accept_iteration
      cases hp : (addr.port == 0) with
      | true => rfl
      | false =>
        cases hro : st.settings.read_only with
        | true => rfl
        | false =>
          obtain ⟨⟨st2, sent⟩, hr⟩ := accept_single_packet_ok st msg addr now
          rw [hr]
          rfl
  · intro subs
    induction subs with
    | nil => exact ⟨rfl, rfl⟩
    | cons s rest ih =>
      unfold send_packet_to_subscribers Subscriber.try_send
      by_cases hc : s.closed = true
      · simp [hc, List.filterMap_cons, List.filter_cons, ih.1, ih.2]
      · by_cases hq : 32 ≤ s.queued
        · simp [hc, hq, List.filterMap_cons, List.filter_cons, ih.1, ih.2,
            Nat.not_lt.mpr hq]
        · simp [hc, hq, List.filterMap_cons, List.filter_cons, ih.1, ih.2,
            Nat.lt_of_not_le hq]

/-- Counterexample to C4 as stated: a throttled datagram reaches neither the
request handler nor the subscriber fan-out, so no `MessageReceived` event is
produced for it (the same holds for a source port of 0). -/
theorem accept_iteration_fanout_counterexample :
    fanRan (accept_iteration exState exPingMsg exAddr true 0) = false ∧
    accept_iteration exState exPingMsg exAddr true 0 = .ok (exState, [], false) := by
  exact ⟨rfl, rfl⟩

/-! ## C6: token rotation -/

/-- C6: after `rotate_token_secrets`, the old secret is the pre-rotation
current secret and the new current secret is a fresh draw from the random
source with length `token_secret_size`; every other state field is
untouched. -/
theorem rotate_token_secrets_spec (st : DHTState) (rng : Nat → Nat) :
    (rotate_token_secrets st rng).old_token_secret = st.token_secret ∧
    (rotate_token_secrets st rng).token_secret =
      make_token_secret st.settings.token_secret_size rng ∧
    (rotate_token_secrets st rng).token_secret.length =
      st.settings.token_secret_size ∧
    (rotate_token_secrets st rng).ip4_source = st.ip4_source ∧
    (rotate_token_secrets st rng).our_id = st.our_id ∧
    (rotate_token_secrets st rng).buckets = st.buckets ∧
    (rotate_token_secrets st rng).peer_storage = st.peer_storage ∧
    (rotate_token_secrets st rng).settings = st.settings ∧
    (rotate_token_secrets st rng).subscribers = st.subscribers := by
  refine ⟨rfl, rfl, ?_, rfl, rfl, rfl, rfl, rfl, rfl⟩
  show (make_token_secret st.settings.token_secret_size rng).length = _
  unfold make_token_secret
  rw [List.length_map, List.length_range]

/-! ## C7: accept-loop error policy -/

/-- C7: the accept loop keeps looping after a `PacketParse` or `Conntrack`
error, and any other error kind (`Timeout`, `Shutdown`, `General`) stops the
loop, propagating the error. -/
theorem accept_loop_error_policy (e : RustyDHTError) :
    accept_loop_step (.ok ()) = .keepLooping ∧
    accept_loop_step (.error e) =
      (if e = .packetParseError ∨ e = .conntrackError then .keepLooping
       else .stop e) := by
  refine ⟨rfl, ?_⟩
  cases e <;> simp [accept_loop_step]

/-! ## C9: send_request rejects non-request messages -/

/-- C9: a message whose type is not a request is rejected by
`common_send_and_handle_response` with a `GeneralError` before anything is
sent on the socket; no transaction-table entry is registered and no state is
produced. -/
theorem common_send_rejects_non_requests (st : DHTState) (sock : SocketModel)
    (msg : Message) (target : SockAddr) (target_id : Option NodeId)
    (fresh_tid : Bytes) (h : ∀ r, msg.message_type ≠ .request r) :
    common_send_and_handle_response_prefix st sock msg target target_id
      fresh_tid = .error .generalError := by
  have hb : msg.isRequest = false := by
    unfold Message.isRequest
    rcases hm : msg.message_type with r | r
    · exact absurd hm (h r)
    · rfl
    · rfl
  unfold common_send_and_handle_response_prefix
  rw [hb]
  rfl

/-- Witness for C9: a concrete KRPC error message is rejected. -/
theorem common_send_rejects_non_requests_witness :
    common_send_and_handle_response_prefix exState ⟨[]⟩ exErrorMsg exAddr none
      [0xbb] = .error .generalError :=
  common_send_rejects_non_requests exState ⟨[]⟩ exErrorMsg exAddr none [0xbb]
    (fun r hr => by cases hr)

/-! ## C10: get_info_hashes only returns populated entries -/

/-- C10: for every `newer_than` filter, each (info_hash, peers) pair returned
by the public `get_info_hashes` has a non-empty peers list. -/
theorem get_info_hashes_entries_nonempty (st : DHTState)
    (newer_than : Option Nat) (p : NodeId × List PeerInfo)
    (h : p ∈ DHT_get_info_hashes st newer_than) : p.2 ≠ [] := by
  unfold DHT_get_info_hashes at h
  have hlen := (List.mem_filter.mp h).2
  intro hnil
  rw [hnil] at hlen
  simp at hlen

/-- Witness for C10: a concrete state with one stored peer yields its pair,
whose peers list is non-empty. -/
theorem get_info_hashes_entries_nonempty_witness :
    (5, [PeerInfo.mk exPeerAddr 100]) ∈ DHT_get_info_hashes exStateOnePeer none ∧
    ([PeerInfo.mk exPeerAddr 100] : List PeerInfo) ≠ [] :=
  ⟨by decide,
   get_info_hashes_entries_nonempty exStateOnePeer none
     (5, [PeerInfo.mk exPeerAddr 100]) (by decide)⟩

/-! ## C8: the get_peers operation's results -/

theorem mem_hashSetInsert (s : List SockAddr) (x p : SockAddr) :
    p ∈ hashSetInsert s x ↔ p ∈ s ∨ p = x := by
  unfold hashSetInsert
  split
  · rename_i hmem
    constructor
    · exact Or.inl
    · rintro (h | h)
      · exact h
      · exact h ▸ hmem
  · simp [List.mem_append]

theorem nodup_hashSetInsert (s : List SockAddr) (x : SockAddr) (h : s.Nodup) :
    (hashSetInsert s x).Nodup := by
  unfold hashSetInsert
  split
  · exact h
  · rename_i hmem
    rw [List.nodup_append]
    exact ⟨h, List.nodup_singleton x, by simpa [List.disjoint_singleton] using hmem⟩

theorem mem_foldl_hashSetInsert (ps : List SockAddr) :
    ∀ (s : List SockAddr) (p : SockAddr),
      p ∈ ps.foldl hashSetInsert s ↔ p ∈ s ∨ p ∈ ps := by
  induction ps with
  | nil => intro s p ; simp
  | cons x xs ih =>
    intro s p
    rw [List.foldl_cons, ih, mem_hashSetInsert]
    constructor
    · rintro ((h | h) | h)
      · exact Or.inl h
      · exact Or.inr (h ▸ List.mem_cons_self x xs)
      · exact Or.inr (List.mem_cons_of_mem x h)
    · rintro (h | h)
      · exact Or.inl (Or.inl h)
      · rcases List.mem_cons.mp h with h | h
        · exact Or.inl (Or.inr h)
        · exact Or.inr h

theorem nodup_foldl_hashSetInsert (ps : List SockAddr) :
    ∀ (s : List SockAddr), s.Nodup → (ps.foldl hashSetInsert s).Nodup := by
  induction ps with
  | nil => intro s h ; exact h
  | cons x xs ih => intro s h ; exact ih _ (nodup_hashSetInsert s x h)

theorem get_peers_fold_responders (events : List GetPeersReplyEvent) :
    ∀ acc : List SockAddr × List GetPeersResponder,
      (events.foldl get_peers_accumulate acc).2 =
        acc.2 ++ events.filterMap responderOf := by
  induction events with
  | nil => intro acc ; simp
  | cons ev evs ih =>
    intro acc
    rw [List.foldl_cons, ih]
    rcases ev with ⟨n, t, vals⟩ | n | e
    · rcases vals with ns | ps
      · simp [get_peers_accumulate, responderOf]
      · simp [get_peers_accumulate, responderOf]
    · simp [get_peers_accumulate, responderOf]
    · simp [get_peers_accumulate, responderOf]

theorem get_peers_fold_mem (events : List GetPeersReplyEvent) :
    ∀ (acc : List SockAddr × List GetPeersResponder) (p : SockAddr),
      p ∈ (events.foldl get_peers_accumulate acc).1 ↔
        p ∈ acc.1 ∨
          ∃ n t ps, GetPeersReplyEvent.response n t (.peers ps) ∈ events ∧ p ∈ ps := by
  induction events with
  | nil => intro acc p ; simp
  | cons ev evs ih =>
    intro acc p
    rw [List.foldl_cons, ih]
    rcases ev with ⟨n, t, vals⟩ | n | e
    · rcases vals with ns | ps
      · show p ∈ acc.1 ∨ _ ↔ _
        constructor
        · rintro (h | ⟨n', t', ps', hin, hp⟩)
          · exact Or.inl h
          · exact Or.inr ⟨n', t', ps', List.mem_cons_of_mem _ hin, hp⟩
        · rintro (h | ⟨n', t', ps', hin, hp⟩)
          · exact Or.inl h
          · rcases List.mem_cons.mp hin with heq | hin
            · cases heq
            · exact Or.inr ⟨n', t', ps', hin, hp⟩
      · show p ∈ ps.foldl hashSetInsert acc.1 ∨ _ ↔ _
        rw [mem_foldl_hashSetInsert]
        constructor
        · rintro ((h | h) | ⟨n', t', ps', hin, hp⟩)
          · exact Or.inl h
          · exact Or.inr ⟨n, t, ps, List.mem_cons_self _ _, h⟩
          · exact Or.inr ⟨n', t', ps', List.mem_cons_of_mem _ hin, hp⟩
        · rintro (h | ⟨n', t', ps', hin, hp⟩)
          · exact Or.inl (Or.inl h)
          · rcases List.mem_cons.mp hin with heq | hin
            · injection heq with hn ht hvals
              injection hvals with hps
              exact Or.inl (Or.inr (hps ▸ hp))
            · exact Or.inr ⟨n', t', ps', hin, hp⟩
    · show p ∈ acc.1 ∨ _ ↔ _
      constructor
      · rintro (h | ⟨n', t', ps', hin, hp⟩)
        · exact Or.inl h
        · exact Or.inr ⟨n', t', ps', List.mem_cons_of_mem _ hin, hp⟩
      · rintro (h | ⟨n', t', ps', hin, hp⟩)
        · exact Or.inl h
        · rcases List.mem_cons.mp hin with heq | hin
          · cases heq
          · exact Or.inr ⟨n', t', ps', hin, hp⟩
    · show p ∈ acc.1 ∨ _ ↔ _
      constructor
      · rintro (h | ⟨n', t', ps', hin, hp⟩)
        · exact Or.inl h
        · exact Or.inr ⟨n', t', ps', List.mem_cons_of_mem _ hin, hp⟩
      · rintro (h | ⟨n', t', ps', hin, hp⟩)
        · exact Or.inl h
        · rcases List.mem_cons.mp hin with heq | hin
          · cases heq
          · exact Or.inr ⟨n', t', ps', hin, hp⟩

theorem get_peers_fold_nodup (events : List GetPeersReplyEvent) :
    ∀ acc : List SockAddr × List GetPeersResponder,
      acc.1.Nodup → (events.foldl get_peers_accumulate acc).1.Nodup := by
  induction events with
  | nil => intro acc h ; exact h
  | cons ev evs ih =>
    intro acc h
    rw [List.foldl_cons]
    rcases ev with ⟨n, t, vals⟩ | n | e
    · rcases vals with ns | ps
      · exact ih _ h
      · exact ih _ (nodup_foldl_hashSetInsert ps acc.1 h)
    · exact ih _ h
    · exact ih _ h

/-- C8: the get_peers operation returns the duplicate-free union of all peer
sockets received across its rounds — a socket is in the result exactly when
some get_peers response carried it — and its responders list holds one
`(Node, token)` entry per get_peers response received (a permutation of the
chronological record), sorted by ascending XOR distance of the responder's id
to the info-hash. -/
theorem get_peers_operation_results (info_hash : NodeId)
    (events : List GetPeersReplyEvent) :
    (get_peers_operation info_hash events).peers.Nodup ∧
    (∀ p, p ∈ (get_peers_operation info_hash events).peers ↔
      ∃ n t ps, GetPeersReplyEvent.response n t (.peers ps) ∈ events ∧ p ∈ ps) ∧
    (get_peers_operation info_hash events).responders.Perm
      (events.filterMap responderOf) ∧
    List.Sorted (responderDistLE info_hash)
      (get_peers_operation info_hash events).responders := by
  unfold get_peers_operation GetPeersResult.new
  dsimp only
  refine ⟨?_, ?_, ?_, ?_⟩
  · exact get_peers_fold_nodup events ([], []) List.nodup_nil
  · intro p
    rw [get_peers_fold_mem]
    simp
  · rw [get_peers_fold_responders]
    simpa using List.perm_insertionSort (responderDistLE info_hash) _
  · exact List.sorted_insertionSort (responderDistLE info_hash) _
